import Mathlib

/-!
Verification of the go-wallpaper-yostar crawler pipeline.

The repository is a family of near-identical Go command-line crawlers
(AzurLane, MahjongSoul, Arknights, AetherGazer) sharing a small library
(package crawal).  This file gives a shallow embedding of the pure parts of
that code and proves the documented properties about them.

Go strings are modelled as List Char; Go int as Int; fallible operations
return Except; the external world (HTTP responses, filesystem writes,
database inserts) is passed in explicitly as data.
-/

set_option maxHeartbeats 1000000

/-! ## String helpers shared by the crawlers -/

/-- Model of Go strings.Contains restricted to the uses in this repository:
true when pat occurs as a contiguous substring of s. -/
def strContains (s pat : List Char) : Bool :=
  s.tails.any (fun t => pat.isPrefixOf t)

/-- Model of Go strings.ReplaceAll for a one-character pattern and a
one-character replacement (the only shape used by the source). -/
def goReplaceChar (old new : Char) (s : List Char) : List Char :=
  s.map (fun c => if c = old then new else c)

/-- Filename sanitization as written in DownloadFile (crawal package) and in
prepareImagesForDownload (cmd/aethergazer/main.go): replace each space with
an underscore and each slash or backslash with a dash, in that order. -/
def sanitizeFileName (s : List Char) : List Char :=
  goReplaceChar '\\' '-' (goReplaceChar '/' '-' (goReplaceChar ' ' '_' s))

/-- Pointwise form of the three replacements performed by sanitizeFileName. -/
def sanChar (c : Char) : Char :=
  if c = ' ' then '_'
  else if c = '/' then '-'
  else if c = '\\' then '-'
  else c

lemma sanitizeFileName_eq_map (s : List Char) :
    sanitizeFileName s = s.map sanChar := by
  induction s with
  | nil => rfl
  | cons a s ih =>
    simp only [sanitizeFileName, goReplaceChar, List.map_cons] at ih ⊢
    refine congrArg₂ List.cons ?_ ih
    by_cases h1 : a = ' '
    · subst h1; decide
    · by_cases h2 : a = '/'
      · subst h2; decide
      · by_cases h3 : a = '\\'
        · subst h3; decide
        · simp [sanChar, h1, h2, h3]

lemma sanChar_idem (c : Char) : sanChar (sanChar c) = sanChar c := by
  by_cases h1 : c = ' '
  · subst h1; decide
  · by_cases h2 : c = '/'
    · subst h2; decide
    · by_cases h3 : c = '\\'
      · subst h3; decide
      · simp [sanChar, h1, h2, h3]

lemma sanChar_not_pathsep (c : Char) :
    (sanChar c = '/' || sanChar c = '\\') = false := by
  by_cases h1 : c = ' '
  · subst h1; decide
  · by_cases h2 : c = '/'
    · subst h2; decide
    · by_cases h3 : c = '\\'
      · subst h3; decide
      · simp [sanChar, h1, h2, h3]

/-- C3: filename sanitization (space to underscore, slash and backslash to
dash) is a pure function of its input, it is idempotent, and its output
contains no slash and no backslash character (stated as: filtering the
output for those characters yields the empty list). -/
theorem sanitize_idempotent_and_pathsafe (s : List Char) :
    sanitizeFileName (sanitizeFileName s) = sanitizeFileName s
    ∧ (sanitizeFileName s).filter (fun c => c = '/' || c = '\\') = [] := by
  constructor
  · rw [sanitizeFileName_eq_map, sanitizeFileName_eq_map, List.map_map]
    refine List.map_congr_left ?_
    intro c _
    exact sanChar_idem c
  · rw [sanitizeFileName_eq_map]
    induction s with
    | nil => rfl
    | cons a s ih =>
      simp only [List.map_cons, List.filter_cons, sanChar_not_pathsep a]
      exact ih

/-! ## Listing records and the dedup filters -/

/-- Decimal rendering of a Go int, as produced by fmt.Sprintf with the d
verb. -/
def intChars (i : Int) : List Char :=
  (toString i).data

/-- Model of slices.Contains on a list of strings. -/
def slicesContains (l : List (List Char)) (x : List Char) : Bool :=
  l.any (fun y => y == x)

/-- Model of IntInArray from the crawal package. -/
def IntInArray (arr : List Int) (v : Int) : Bool :=
  arr.any (fun a => a == v)

/-- One row of the MahjongSoul listing (wallpaperRow in the source). -/
structure WallpaperRow where
  ID : Int
  PC : List Char
  Mobile1 : List Char
  Mobile2 : List Char
  Title : List Char
  Description : List Char
deriving DecidableEq, Repr

/-- One pending download of the MahjongSoul crawler (majongSoul in the
source). -/
structure MajongSoul where
  IdGallery : List Char
  FileName : List Char
  Url : List Char
deriving DecidableEq, Repr

/-- The pending download built from one fresh listing row by
filterNewWallpapers: the id rendered in decimal, the PC image URL, and the
title as file name. -/
def mahjongOf (r : WallpaperRow) : MajongSoul :=
  { IdGallery := intChars r.ID, FileName := r.Title, Url := r.PC }

/-- filterNewWallpapers from the MahjongSoul crawler: keep the rows whose
decimal id is not among the existing ids, in listing order, one pending
download per kept row. -/
def filterNewWallpapers (wallpapers : List WallpaperRow)
    (existingIDs : List (List Char)) : List MajongSoul :=
  match wallpapers with
  | [] => []
  | row :: rest =>
    if slicesContains existingIDs (intChars row.ID) = true then
      filterNewWallpapers rest existingIDs
    else
      mahjongOf row :: filterNewWallpapers rest existingIDs

/-- One row of the AetherGazer listing (Wallpaper in
cmd/aethergazer/main.go).  WType models the Go field named Type. -/
structure AGWallpaper where
  ID : Int
  Title : List Char
  WType : List Char
  ContentImg : List Char
  MobileContentImg1 : List Char
  StickerUrl : List Char
  Creator : List Char
deriving DecidableEq, Repr

/-- One queued image of the AetherGazer crawler (ImageDownload in the
source). -/
structure ImageDownload where
  URL : List Char
  FileName : List Char
  Path : List Char
deriving DecidableEq, Repr

/-- Tag appended to the desktop-image file name by
prepareImagesForDownload. -/
def contentTag : List Char := ['_', 'c', 'o', 'n', 't', 'e', 'n', 't']

/-- Tag appended to the mobile-image file name by
prepareImagesForDownload. -/
def mobileTag : List Char := ['_', 'm', 'o', 'b', 'i', 'l', 'e']

/-- File name of the desktop (content) variant: sanitized title, underscore,
decimal id, content tag. -/
def agContentName (w : AGWallpaper) : List Char :=
  sanitizeFileName w.Title ++ ['_'] ++ intChars w.ID ++ contentTag

/-- File name of the mobile variant: sanitized title, underscore, decimal
id, mobile tag. -/
def agMobileName (w : AGWallpaper) : List Char :=
  sanitizeFileName w.Title ++ ['_'] ++ intChars w.ID ++ mobileTag

/-- The zero, one or two queue entries one fresh AetherGazer record yields:
a content entry when ContentImg is non-empty, then a mobile entry when
MobileContentImg1 is non-empty. -/
def imageEntries (contentImgPath mobileContentImgPath : List Char)
    (w : AGWallpaper) : List ImageDownload :=
  (if w.ContentImg = [] then []
   else [{ URL := w.ContentImg, FileName := agContentName w,
           Path := contentImgPath }])
  ++ (if w.MobileContentImg1 = [] then []
      else [{ URL := w.MobileContentImg1, FileName := agMobileName w,
              Path := mobileContentImgPath }])

/-- prepareImagesForDownload from cmd/aethergazer/main.go: skip records
whose id is already in the database, and for each remaining record append
its content entry and then its mobile entry when the respective URLs are
non-empty. -/
def prepareImagesForDownload (wallpapers : List AGWallpaper)
    (existingIDs : List Int) (contentImgPath mobileContentImgPath : List Char) :
    List ImageDownload :=
  match wallpapers with
  | [] => []
  | w :: rest =>
    if IntInArray existingIDs w.ID = true then
      prepareImagesForDownload rest existingIDs contentImgPath mobileContentImgPath
    else
      imageEntries contentImgPath mobileContentImgPath w
        ++ prepareImagesForDownload rest existingIDs contentImgPath mobileContentImgPath

lemma filterNewWallpapers_eq_filter_map (ws : List WallpaperRow)
    (ex : List (List Char)) :
    filterNewWallpapers ws ex
      = (ws.filter (fun r => !(slicesContains ex (intChars r.ID)))).map mahjongOf := by
  induction ws with
  | nil => rfl
  | cons r rest ih =>
    by_cases h : slicesContains ex (intChars r.ID) = true
    · simp [filterNewWallpapers, h, ih]
    · simp only [Bool.not_eq_true] at h
      simp [filterNewWallpapers, h, ih]

lemma filterNewWallpapers_excludes (ws : List WallpaperRow)
    (ex : List (List Char)) :
    (filterNewWallpapers ws ex).filter
      (fun m => slicesContains ex m.IdGallery) = [] := by
  induction ws with
  | nil => rfl
  | cons r rest ih =>
    by_cases h : slicesContains ex (intChars r.ID) = true
    · simp [filterNewWallpapers, h, ih]
    · simp only [Bool.not_eq_true] at h
      simp [filterNewWallpapers, h, ih, List.filter_cons, mahjongOf]

lemma prepareImagesForDownload_eq (ws : List AGWallpaper) (ex : List Int)
    (cp mp : List Char) :
    prepareImagesForDownload ws ex cp mp
      = ((ws.filter (fun w => !(IntInArray ex w.ID))).map (imageEntries cp mp)).flatten := by
  induction ws with
  | nil => rfl
  | cons w rest ih =>
    by_cases h : IntInArray ex w.ID = true
    · simp [prepareImagesForDownload, h, ih]
    · simp only [Bool.not_eq_true] at h
      simp [prepareImagesForDownload, h, ih]

/-- C1: both dedup filters exclude every record whose identifier is already
recorded, and the entries they return come from the records not in the set,
in the same relative order as the input listing: filterNewWallpapers is
exactly the image of the kept ordered subsequence of rows, and
prepareImagesForDownload is the ordered concatenation of the per-record
entries of the kept ordered subsequence. -/
theorem dedup_excludes_recorded_and_keeps_order (ws : List WallpaperRow)
    (ex : List (List Char)) (aws : List AGWallpaper) (aex : List Int)
    (cp mp : List Char) :
    filterNewWallpapers ws ex
        = (ws.filter (fun r => !(slicesContains ex (intChars r.ID)))).map mahjongOf
    ∧ List.Sublist (ws.filter (fun r => !(slicesContains ex (intChars r.ID)))) ws
    ∧ (filterNewWallpapers ws ex).filter
        (fun m => slicesContains ex m.IdGallery) = []
    ∧ prepareImagesForDownload aws aex cp mp
        = ((aws.filter (fun w => !(IntInArray aex w.ID))).map (imageEntries cp mp)).flatten
    ∧ List.Sublist (aws.filter (fun w => !(IntInArray aex w.ID))) aws :=
  ⟨filterNewWallpapers_eq_filter_map ws ex,
   List.filter_sublist ws,
   filterNewWallpapers_excludes ws ex,
   prepareImagesForDownload_eq aws aex cp mp,
   List.filter_sublist aws⟩

lemma append_same_left {l s t : List Char} (h : l ++ s = l ++ t) : s = t := by
  induction l with
  | nil => simpa using h
  | cons a l ih =>
    simp only [List.cons_append, List.cons.injEq] at h
    exact ih h.2

/-- Sample MahjongSoul listing row with identifier 42 carrying two non-empty
image-variant URLs (PC and Mobile1). -/
def sampleRow42 : WallpaperRow :=
  { ID := 42, PC := ['a'], Mobile1 := ['b'], Mobile2 := [],
    Title := ['t'], Description := [] }

/-- C9 counterexample: the MahjongSoul dedup filter (filterNewWallpapers),
given one record with identifier 42, two non-empty image-variant URLs and an
empty dedup set, emits exactly one pending download (built from the PC URL
only), not two as the claim states. -/
theorem filterNewWallpapers_single_entry_cex :
    (filterNewWallpapers [sampleRow42] []).length = 1
    ∧ ¬ (filterNewWallpapers [sampleRow42] []).length = 2
    ∧ filterNewWallpapers [sampleRow42] []
        = [{ IdGallery := ['4', '2'], FileName := ['t'], Url := ['a'] }] := by
  refine ⟨by decide, by decide, by decide⟩

/-- C9 amended: the AetherGazer filter (prepareImagesForDownload) does emit
exactly two pending downloads for a fresh record with two non-empty variant
URLs, one per kind, both file names carrying the record identifier, with the
content entry routed to the content folder and the mobile entry to the
mobile folder, and the two file names distinct; the MahjongSoul filter
(filterNewWallpapers) instead emits exactly one entry per fresh record,
built from the PC URL only. -/
theorem fresh_record_two_variant_entries (w : AGWallpaper) (aex : List Int)
    (cp mp : List Char) (r : WallpaperRow) (ex : List (List Char))
    (h1 : IntInArray aex w.ID = false) (h2 : ¬ w.ContentImg = [])
    (h3 : ¬ w.MobileContentImg1 = [])
    (h4 : slicesContains ex (intChars r.ID) = false) :
    prepareImagesForDownload [w] aex cp mp
      = [{ URL := w.ContentImg, FileName := agContentName w, Path := cp },
         { URL := w.MobileContentImg1, FileName := agMobileName w, Path := mp }]
    ∧ ¬ agContentName w = agMobileName w
    ∧ filterNewWallpapers [r] ex = [mahjongOf r] := by
  refine ⟨?_, ?_, ?_⟩
  · simp [prepareImagesForDownload, imageEntries, h1, h2, h3]
  · intro h
    unfold agContentName agMobileName at h
    simp only [List.append_assoc] at h
    have h5 := append_same_left (append_same_left (append_same_left h))
    exact absurd h5 (by decide)
  · simp [filterNewWallpapers, h4]

/-- C9 amended witness: concrete instance at identifier 42 with both variant
URLs non-empty and an empty dedup set. -/
theorem fresh_record_two_variant_entries_witness :
    prepareImagesForDownload
        [{ ID := 42, Title := ['t'], WType := [], ContentImg := ['c'],
           MobileContentImg1 := ['m'], StickerUrl := [], Creator := [] }]
        [] ['p'] ['q']
      = [{ URL := ['c'],
           FileName := agContentName
             { ID := 42, Title := ['t'], WType := [], ContentImg := ['c'],
               MobileContentImg1 := ['m'], StickerUrl := [], Creator := [] },
           Path := ['p'] },
         { URL := ['m'],
           FileName := agMobileName
             { ID := 42, Title := ['t'], WType := [], ContentImg := ['c'],
               MobileContentImg1 := ['m'], StickerUrl := [], Creator := [] },
           Path := ['q'] }] :=
  (fresh_record_two_variant_entries
    { ID := 42, Title := ['t'], WType := [], ContentImg := ['c'],
      MobileContentImg1 := ['m'], StickerUrl := [], Creator := [] }
    [] ['p'] ['q'] sampleRow42 []
    (by decide) (by decide) (by decide) (by decide)).1

/-! ## DownloadFile: extension selection and file naming -/

/-- Scan a reversed path from its end: stop at a separator with no
extension, or return the suffix starting at the first dot found. -/
def goFilepathExtAux : List Char → List Char → List Char
  | [], _ => []
  | c :: rest, acc =>
    if c = '/' then []
    else if c = '.' then c :: acc
    else goFilepathExtAux rest (c :: acc)

/-- Model of Go filepath.Ext on a Unix path: the suffix beginning at the
final dot in the final slash-separated element, empty when that element has
no dot. -/
def goFilepathExt (s : List Char) : List Char :=
  goFilepathExtAux s.reverse []

/-- Model of Go path.Base: last element of the slash-separated path after
dropping trailing slashes; a single dot for the empty path and a single
slash for an all-slash path. -/
def goPathBase (s : List Char) : List Char :=
  if s = [] then ['.']
  else
    if ((s.reverse.dropWhile (fun c => c == '/')).takeWhile
          (fun c => !(c == '/'))).reverse = [] then ['/']
    else ((s.reverse.dropWhile (fun c => c == '/')).takeWhile
          (fun c => !(c == '/'))).reverse

lemma goPathBase_length (s : List Char) : 1 ≤ (goPathBase s).length := by
  unfold goPathBase
  split
  · decide
  · split
    · decide
    · rename_i hne
      exact Nat.one_le_iff_ne_zero.mpr
        (fun h0 => hne (List.eq_nil_of_length_eq_zero h0))

/-- Substring patterns and extensions used by the Content-Type inference in
DownloadFile. -/
def jpegSub : List Char := ['j', 'p', 'e', 'g']

def jpgSub : List Char := ['j', 'p', 'g']

def pngSub : List Char := ['p', 'n', 'g']

def gifSub : List Char := ['g', 'i', 'f']

def webpSub : List Char := ['w', 'e', 'b', 'p']

def jpgExt : List Char := ['.', 'j', 'p', 'g']

def pngExt : List Char := ['.', 'p', 'n', 'g']

def gifExt : List Char := ['.', 'g', 'i', 'f']

def webpExt : List Char := ['.', 'w', 'e', 'b', 'p']

/-- Extension inferred from the declared Content-Type, as the if-else chain
in both DownloadFile variants writes it: jpeg or jpg to .jpg, then png, gif,
webp, otherwise empty. -/
def extFromContentType (ct : List Char) : List Char :=
  if strContains ct jpegSub || strContains ct jpgSub then jpgExt
  else if strContains ct pngSub then pngExt
  else if strContains ct gifSub then gifExt
  else if strContains ct webpSub then webpExt
  else []

/-- File name actually used by DownloadFile: the given one, or the base of
the URL when the given one is empty. -/
def fnameOrBase (url fileName : List Char) : List Char :=
  if fileName = [] then goPathBase url else fileName

/-- Outcome of the single HTTP GET a DownloadFile call performs: the request
failed outright, or a response arrived with a status code and a declared
Content-Type. -/
inductive DlHttp where
  | netError
  | response (statusCode : Nat) (contentType : List Char)
deriving DecidableEq, Repr

/-- Error cases of DownloadFile, abstracting the wrapped Go error values. -/
inductive DlError where
  | requestFailed
  | nonOkStatus (code : Nat)
  | writeFailed
deriving DecidableEq, Repr

namespace CrawYs

/-- Extension chosen by the go-craw-wallpaper-ys DownloadFile: the extension
of the URL; when the URL has none and the file name contains no dot, the one
inferred from the Content-Type. -/
def chooseExt (url fn ct : List Char) : List Char :=
  if goFilepathExt url = [] ∧ strContains fn ['.'] = false then
    extFromContentType ct
  else goFilepathExt url

/-- DownloadFile of the go-craw-wallpaper-ys crawal package (URL-based
extension variant): fail on request error, on a non-200 status, or on a
filesystem write failure; otherwise save under the sanitized file name (the
URL base when the given name is empty) suffixed with the chosen extension.
The returned value is the saved base file name. -/
def DownloadFile (url fileName pathTo : List Char) (r : DlHttp)
    (writeOk : Bool) : Except DlError (List Char) :=
  match r with
  | .netError => .error .requestFailed
  | .response code ct =>
    if ¬ code = 200 then .error (.nonOkStatus code)
    else if writeOk then
      .ok (sanitizeFileName (fnameOrBase url fileName)
            ++ chooseExt url (fnameOrBase url fileName) ct)
    else .error .writeFailed

end CrawYs

namespace Yostar

/-- Extension chosen by the go-wallpaper-yostar DownloadFile: the extension
of the (possibly URL-derived) file name; when it has none, the one inferred
from the Content-Type. -/
def chooseExt (fn ct : List Char) : List Char :=
  if goFilepathExt fn = [] then extFromContentType ct
  else goFilepathExt fn

/-- DownloadFile of the go-wallpaper-yostar crawal package (file-name-based
extension variant).  The returned value is the saved base file name. -/
def DownloadFile (url fileName pathTo : List Char) (r : DlHttp)
    (writeOk : Bool) : Except DlError (List Char) :=
  match r with
  | .netError => .error .requestFailed
  | .response code ct =>
    if ¬ code = 200 then .error (.nonOkStatus code)
    else if writeOk then
      .ok (sanitizeFileName (fnameOrBase url fileName)
            ++ chooseExt (fnameOrBase url fileName) ct)
    else .error .writeFailed

end Yostar

/-- Content-Type strings used to witness the inference mapping. -/
def imageJpegCT : List Char := ['i', 'm', 'a', 'g', 'e', '/', 'j', 'p', 'e', 'g']

def imagePngCT : List Char := ['i', 'm', 'a', 'g', 'e', '/', 'p', 'n', 'g']

def imageGifCT : List Char := ['i', 'm', 'a', 'g', 'e', '/', 'g', 'i', 'f']

def imageWebpCT : List Char := ['i', 'm', 'a', 'g', 'e', '/', 'w', 'e', 'b', 'p']

/-- C6: extension precedence in both DownloadFile variants.  An extension
already present in the URL (go-craw-wallpaper-ys variant) or in the file
name (go-wallpaper-yostar variant) is preferred and the Content-Type is then
ignored; only when none is present is the extension inferred from the
Content-Type by the mapping jpeg to .jpg, png to .png, gif to .gif, webp to
.webp; when no pattern matches the extension stays empty.  In particular,
with no extension in the URL or file name and a Content-Type of image/png,
the saved file name ends in .png. -/
theorem extension_precedence (url name pathTo ct : List Char) :
    (¬ goFilepathExt url = [] →
      CrawYs.chooseExt url (fnameOrBase url name) ct = goFilepathExt url)
    ∧ (strContains (fnameOrBase url name) ['.'] = true →
      CrawYs.chooseExt url (fnameOrBase url name) ct = goFilepathExt url)
    ∧ (goFilepathExt url = [] →
      strContains (fnameOrBase url name) ['.'] = false →
      CrawYs.chooseExt url (fnameOrBase url name) ct = extFromContentType ct)
    ∧ (¬ goFilepathExt (fnameOrBase url name) = [] →
      Yostar.chooseExt (fnameOrBase url name) ct
        = goFilepathExt (fnameOrBase url name))
    ∧ (goFilepathExt (fnameOrBase url name) = [] →
      Yostar.chooseExt (fnameOrBase url name) ct = extFromContentType ct)
    ∧ (extFromContentType imageJpegCT = jpgExt
       ∧ extFromContentType imagePngCT = pngExt
       ∧ extFromContentType imageGifCT = gifExt
       ∧ extFromContentType imageWebpCT = webpExt)
    ∧ (strContains ct jpegSub = false → strContains ct jpgSub = false →
      strContains ct pngSub = false → strContains ct gifSub = false →
      strContains ct webpSub = false → extFromContentType ct = [])
    ∧ CrawYs.DownloadFile url name pathTo (DlHttp.response 200 ct) true
        = Except.ok (sanitizeFileName (fnameOrBase url name)
            ++ CrawYs.chooseExt url (fnameOrBase url name) ct)
    ∧ Yostar.DownloadFile url name pathTo (DlHttp.response 200 ct) true
        = Except.ok (sanitizeFileName (fnameOrBase url name)
            ++ Yostar.chooseExt (fnameOrBase url name) ct)
    ∧ (goFilepathExt url = [] →
      strContains (fnameOrBase url name) ['.'] = false →
      CrawYs.DownloadFile url name pathTo (DlHttp.response 200 imagePngCT) true
        = Except.ok (sanitizeFileName (fnameOrBase url name) ++ pngExt))
    ∧ (goFilepathExt (fnameOrBase url name) = [] →
      Yostar.DownloadFile url name pathTo (DlHttp.response 200 imagePngCT) true
        = Except.ok (sanitizeFileName (fnameOrBase url name) ++ pngExt)) := by
  have hpng : extFromContentType imagePngCT = pngExt := by decide
  refine ⟨?_, ?_, ?_, ?_, ?_, by decide, ?_, ?_, ?_, ?_, ?_⟩
  · intro h
    simp [CrawYs.chooseExt, h]
  · intro h
    simp [CrawYs.chooseExt, h]
  · intro h1 h2
    simp [CrawYs.chooseExt, h1, h2]
  · intro h
    simp [Yostar.chooseExt, h]
  · intro h
    simp [Yostar.chooseExt, h]
  · intro h1 h2 h3 h4 h5
    simp [extFromContentType, h1, h2, h3, h4, h5]
  · simp [CrawYs.DownloadFile]
  · simp [Yostar.DownloadFile]
  · intro h1 h2
    simp [CrawYs.DownloadFile, CrawYs.chooseExt, h1, h2, hpng]
  · intro h
    simp [Yostar.DownloadFile, Yostar.chooseExt, h, hpng]

/-- C6 witness: a URL with no extension, an empty file name and Content-Type
image/png give a saved name ending in .png (go-craw-wallpaper-ys variant,
concrete instance). -/
theorem extension_precedence_witness :
    CrawYs.DownloadFile ['u'] [] [] (DlHttp.response 200 imagePngCT) true
      = Except.ok (sanitizeFileName (fnameOrBase ['u'] []) ++ pngExt) :=
  (extension_precedence ['u'] [] [] imagePngCT).2.2.2.2.2.2.2.2.2.1
    (by decide) (by decide)

/-- C10: when DownloadFile is called with an empty file name and the
response is successful, both variants save under a base name derived from
the last path segment of the URL (path.Base), sanitized, and that base name
is never empty. -/
theorem empty_filename_uses_url_base (url ct pathTo : List Char) :
    CrawYs.DownloadFile url [] pathTo (DlHttp.response 200 ct) true
      = Except.ok (sanitizeFileName (goPathBase url)
          ++ CrawYs.chooseExt url (goPathBase url) ct)
    ∧ Yostar.DownloadFile url [] pathTo (DlHttp.response 200 ct) true
      = Except.ok (sanitizeFileName (goPathBase url)
          ++ Yostar.chooseExt (goPathBase url) ct)
    ∧ 1 ≤ (sanitizeFileName (goPathBase url)).length := by
  refine ⟨?_, ?_, ?_⟩
  · simp [CrawYs.DownloadFile, fnameOrBase]
  · simp [Yostar.DownloadFile, fnameOrBase]
  · rw [sanitizeFileName_eq_map, List.length_map]
    exact goPathBase_length url

/-! ## Worker loops and the bounded pool -/

/-- External fate of one queue item: whether its download (request, status
and file write) succeeds and whether its database insert succeeds. -/
structure ItemEnv where
  downloadOk : Bool
  insertOk : Bool
deriving DecidableEq, Repr

/-- What the worker does after handling one item: move to the next queue
item, or kill the whole process (log.Fatal). -/
inductive WorkerOutcome where
  | continued
  | fatalExit
deriving DecidableEq, Repr

/-- Observable effects of handling one queue item. -/
structure ItemStep where
  fileWritten : Bool
  rowInserted : Bool
  errorLogged : Bool
  outcome : WorkerOutcome
deriving DecidableEq, Repr

/-- Per-item body of crawURL in the MahjongSoul, AzurLane and Arknights
crawlers: a failed download is logged and skipped, a failed insert after a
successful download is logged and skipped, success logs and records the
row; every branch continues with the next item. -/
def crawURLItem (e : ItemEnv) : ItemStep :=
  if e.downloadOk = false then
    { fileWritten := false, rowInserted := false, errorLogged := true,
      outcome := .continued }
  else if e.insertOk = false then
    { fileWritten := true, rowInserted := false, errorLogged := true,
      outcome := .continued }
  else
    { fileWritten := true, rowInserted := true, errorLogged := false,
      outcome := .continued }

/-- Per-item body of downloadWorker in cmd/aethergazer/main.go: no database
insert at all; a failed download is logged and skipped. -/
def downloadWorkerItem (downloadOk : Bool) : ItemStep :=
  if downloadOk = false then
    { fileWritten := false, rowInserted := false, errorLogged := true,
      outcome := .continued }
  else
    { fileWritten := true, rowInserted := false, errorLogged := false,
      outcome := .continued }

/-- Per-item body of the legacy crawURL in the old AetherGazer main (fourth
source part): both a failed download and a failed insert call log.Fatal,
which logs and terminates the whole process. -/
def legacyCrawURLItem (e : ItemEnv) : ItemStep :=
  if e.downloadOk = false then
    { fileWritten := false, rowInserted := false, errorLogged := true,
      outcome := .fatalExit }
  else if e.insertOk = false then
    { fileWritten := true, rowInserted := false, errorLogged := true,
      outcome := .fatalExit }
  else
    { fileWritten := true, rowInserted := true, errorLogged := false,
      outcome := .continued }

/-- Per-item body of crawURL in the MahjongSoul crawler with the download
modelled in full: DownloadFile runs first, the insert runs only when it
returned success. -/
def crawURLItemFull (url name pathTo : List Char) (r : DlHttp)
    (writeOk insertOk : Bool) : ItemStep :=
  match CrawYs.DownloadFile url name pathTo r writeOk with
  | .error _ =>
    { fileWritten := false, rowInserted := false, errorLogged := true,
      outcome := .continued }
  | .ok _ =>
    if insertOk = false then
      { fileWritten := true, rowInserted := false, errorLogged := true,
        outcome := .continued }
    else
      { fileWritten := true, rowInserted := true, errorLogged := false,
        outcome := .continued }

/-- Outcome of one item in the accounting sense of the pool: a recorded
success, or a failure logged at the download or at the insert step. -/
inductive ItemOutcome where
  | success
  | downloadFailed
  | insertFailed
deriving DecidableEq, Repr

/-- Accounting view of the crawURL loop body. -/
def crawURLOutcome (e : ItemEnv) : ItemOutcome :=
  if e.downloadOk = false then .downloadFailed
  else if e.insertOk = false then .insertFailed
  else .success

/-- Receive loop of a crawURL worker whose insert-statement preparation
succeeded: the loop body is applied to each item the channel hands the
worker, once, in order. -/
def crawURLRun (items : List (MajongSoul × ItemEnv)) :
    List (MajongSoul × ItemOutcome) :=
  items.map (fun p => (p.1, crawURLOutcome p.2))

/-- Full body of a crawURL worker: db.Prepare runs before the receive loop,
and on a preparation error the worker logs it and returns at once, never
receiving a single queue item; only on success does it run the receive loop
over the items the channel hands it. -/
def crawURLWorker (prepareOk : Bool)
    (items : List (MajongSoul × ItemEnv)) :
    List (MajongSoul × ItemOutcome) :=
  if prepareOk = false then [] else crawURLRun items

/-- Combined processing of the whole pool: every worker, given its
statement-preparation fate and the finite sequence of items the channel
hands it.  A worker whose preparation failed ranges over nothing, so the
channel can only deliver items to workers whose preparation succeeded; when
no worker survives preparation nothing is delivered at all, yet the wait
group still finishes and main exits. -/
def poolRunFull (workers : List (Bool × List (MajongSoul × ItemEnv))) :
    List (MajongSoul × ItemOutcome) :=
  (workers.map (fun w => crawURLWorker w.1 w.2)).flatten

/-- True exactly for an item that ended as a recorded success. -/
def isSuccess : ItemOutcome → Bool
  | .success => true
  | .downloadFailed => false
  | .insertFailed => false

lemma length_filter_add_length_filter_not {α : Type} (l : List α)
    (p : α → Bool) :
    (l.filter p).length + (l.filter (fun x => !(p x))).length = l.length := by
  induction l with
  | nil => rfl
  | cons a l ih =>
    by_cases h : p a = true
    · rw [List.filter_cons_of_pos h,
        List.filter_cons_of_neg (by simp [h])]
      simp only [List.length_cons]
      omega
    · have h0 : p a = false := by simpa using h
      rw [List.filter_cons_of_neg (by simp [h0]),
        List.filter_cons_of_pos (by simp [h0])]
      simp only [List.length_cons]
      omega

lemma poolRunFull_cons (w : Bool × List (MajongSoul × ItemEnv))
    (rest : List (Bool × List (MajongSoul × ItemEnv))) :
    poolRunFull (w :: rest) = crawURLWorker w.1 w.2 ++ poolRunFull rest := rfl

lemma poolRunFull_eq_map_flatten
    (workers : List (Bool × List (MajongSoul × ItemEnv))) :
    poolRunFull workers
      = ((workers.filter (fun w => w.1)).map Prod.snd).flatten.map
          (fun p => (p.1, crawURLOutcome p.2)) := by
  induction workers with
  | nil => rfl
  | cons w rest ih =>
    rcases w with ⟨b, items⟩
    rw [poolRunFull_cons]
    cases b with
    | false =>
      rw [List.filter_cons_of_neg (by simp)]
      rw [show crawURLWorker false items = [] from rfl, List.nil_append]
      exact ih
    | true =>
      rw [List.filter_cons_of_pos (by simp)]
      simp only [List.map_cons, List.flatten_cons, List.map_append]
      rw [show crawURLWorker true items = crawURLRun items from rfl]
      exact congrArg (fun l => crawURLRun items ++ l) ih

/-- C2 counterexample: when the insert-statement preparation fails in every
worker, each worker returns before its receive loop, so no worker ranges
over the channel and nothing enqueued is ever received; with one enqueued
item the pool of five such workers records zero successes and zero logged
per-item failures, so the success and failure counts do not add up to the
enqueued count and the item is dropped without any per-item log. -/
theorem pool_drops_items_when_all_prepares_fail_cex :
    poolRunFull [(false, []), (false, []), (false, []), (false, []),
      (false, [])] = []
    ∧ ¬ (((poolRunFull [(false, []), (false, []), (false, []), (false, []),
            (false, [])]).filter (fun pr => isSuccess pr.2)).length
          + ((poolRunFull [(false, []), (false, []), (false, []),
              (false, []), (false, [])]).filter
              (fun pr => !(isSuccess pr.2))).length
        = ([(⟨['1'], ['f'], ['u']⟩,
             ({ downloadOk := true, insertOk := true } : ItemEnv))] :
              List (MajongSoul × ItemEnv)).length) := by
  refine ⟨rfl, by decide⟩

/-- C2 amended: a worker whose statement preparation fails consumes and
processes nothing; and whenever the closed channel delivers each enqueued
item to exactly one worker whose statement preparation succeeded (which Go
channel semantics guarantee as long as at least one worker survives
preparation, but which fails when none does), the pool processes each
enqueued item exactly once: recorded successes plus logged failures equal
the number of enqueued items, and the processed items are a permutation of
the enqueued items, so none is then dropped or handled twice. -/
theorem pool_accounts_items_delivered_to_prepared_workers
    (workers : List (Bool × List (MajongSoul × ItemEnv)))
    (enq : List (MajongSoul × ItemEnv))
    (h : List.Perm ((workers.filter (fun w => w.1)).map Prod.snd).flatten enq) :
    ((poolRunFull workers).filter (fun pr => isSuccess pr.2)).length
      + ((poolRunFull workers).filter (fun pr => !(isSuccess pr.2))).length
      = enq.length
    ∧ List.Perm ((poolRunFull workers).map Prod.fst) (enq.map Prod.fst)
    ∧ (∀ items : List (MajongSoul × ItemEnv),
        crawURLWorker false items = []) := by
  refine ⟨?_, ?_, fun items => rfl⟩
  · rw [length_filter_add_length_filter_not, poolRunFull_eq_map_flatten,
      List.length_map]
    exact h.length_eq
  · rw [poolRunFull_eq_map_flatten, List.map_map]
    have h2 : (Prod.fst ∘ fun p : MajongSoul × ItemEnv =>
        (p.1, crawURLOutcome p.2)) = Prod.fst := by
      funext p
      rfl
    rw [h2]
    exact h.map Prod.fst

/-- C2 amended witness: one surviving worker handed two items (one
succeeding, one failing) and one worker with a failed preparation; both
enqueued items are accounted for. -/
theorem pool_accounts_items_delivered_to_prepared_workers_witness :
    ((poolRunFull [(true, [(⟨['1'], ['f'], ['u']⟩, ⟨true, true⟩),
                           (⟨['2'], ['g'], ['v']⟩, ⟨false, true⟩)]),
                   (false, [])]).filter
        (fun pr => isSuccess pr.2)).length
      + ((poolRunFull [(true, [(⟨['1'], ['f'], ['u']⟩, ⟨true, true⟩),
                               (⟨['2'], ['g'], ['v']⟩, ⟨false, true⟩)]),
                       (false, [])]).filter
          (fun pr => !(isSuccess pr.2))).length
      = ([(⟨['1'], ['f'], ['u']⟩, ⟨true, true⟩),
          (⟨['2'], ['g'], ['v']⟩, (⟨false, true⟩ : ItemEnv))] :
            List (MajongSoul × ItemEnv)).length :=
  (pool_accounts_items_delivered_to_prepared_workers
    [(true, [(⟨['1'], ['f'], ['u']⟩, ⟨true, true⟩),
             (⟨['2'], ['g'], ['v']⟩, ⟨false, true⟩)]),
     (false, [])]
    [(⟨['1'], ['f'], ['u']⟩, ⟨true, true⟩),
     (⟨['2'], ['g'], ['v']⟩, ⟨false, true⟩)]
    (by decide)).1

/-- C5 counterexample: in the legacy AetherGazer worker (crawURL of the old
main in the fourth source part, one of the claim's cited code places), a
download error is handled with log.Fatal, which terminates the whole
process instead of continuing with the next queue item. -/
theorem legacy_worker_fatal_on_download_error_cex :
    (legacyCrawURLItem { downloadOk := false, insertOk := true }).outcome
        = WorkerOutcome.fatalExit
    ∧ ¬ (legacyCrawURLItem { downloadOk := false, insertOk := true }).outcome
        = WorkerOutcome.continued := by
  refine ⟨by decide, by decide⟩

/-- C5 amended: in the current workers (crawURL of the MahjongSoul, AzurLane
and Arknights crawlers and downloadWorker of cmd/aethergazer/main.go) every
per-item download, write or insert error is logged and the worker continues
with the next queue item, never terminating and never retrying (each
received item is handled exactly once, in order); the legacy AetherGazer
worker in the fourth source part is the exception, terminating the process
on such errors. -/
theorem per_item_errors_logged_and_skipped :
    (∀ e : ItemEnv, (crawURLItem e).outcome = WorkerOutcome.continued)
    ∧ (∀ e : ItemEnv, e.downloadOk = false ∨ e.insertOk = false →
        (crawURLItem e).errorLogged = true)
    ∧ (∀ b : Bool, (downloadWorkerItem b).outcome = WorkerOutcome.continued)
    ∧ (∀ items : List (MajongSoul × ItemEnv),
        (crawURLRun items).map Prod.fst = items.map Prod.fst) := by
  refine ⟨?_, ?_, ?_, ?_⟩
  · intro e
    rcases e with ⟨d, i⟩
    cases d <;> cases i <;> rfl
  · intro e h
    rcases e with ⟨d, i⟩
    rcases h with h | h
    · have hd : d = false := h
      subst hd
      rfl
    · have hi : i = false := h
      subst hi
      cases d <;> rfl
  · intro b
    cases b <;> rfl
  · intro items
    induction items with
    | nil => rfl
    | cons a rest ih =>
      simp [crawURLRun] at ih ⊢

/-- C5 amended witness: a failed download in the current MahjongSoul worker
is logged and the worker continues. -/
theorem per_item_errors_logged_and_skipped_witness :
    (crawURLItem { downloadOk := false, insertOk := true }).errorLogged
      = true :=
  per_item_errors_logged_and_skipped.2.1
    { downloadOk := false, insertOk := true } (Or.inl rfl)

/-- C7: when the download of a queue item fails (here: any non-200 response
status, for example 404), the worker inserts no database row for that item
and continues with the next item; and in general a row is inserted only
when DownloadFile returned success and the insert itself succeeded. -/
theorem no_insert_on_download_failure (url name pathTo ct : List Char)
    (code : Nat) (writeOk insertOk : Bool) (h : ¬ code = 200) :
    crawURLItemFull url name pathTo (DlHttp.response code ct) writeOk insertOk
      = { fileWritten := false, rowInserted := false, errorLogged := true,
          outcome := WorkerOutcome.continued }
    ∧ (∀ r : DlHttp, ∀ w i : Bool,
        (crawURLItemFull url name pathTo r w i).rowInserted = true →
        i = true ∧ ∃ saved, CrawYs.DownloadFile url name pathTo r w
          = Except.ok saved) := by
  constructor
  · simp [crawURLItemFull, CrawYs.DownloadFile, h]
  · intro r w i hIns
    cases hdl : CrawYs.DownloadFile url name pathTo r w with
    | error e =>
      simp [crawURLItemFull, hdl] at hIns
    | ok s =>
      cases i with
      | false => simp [crawURLItemFull, hdl] at hIns
      | true => exact ⟨rfl, s, rfl⟩

/-- C7 witness: a 404 response on a concrete item leads to no inserted row
and a continuing worker. -/
theorem no_insert_on_download_failure_witness :
    crawURLItemFull ['u'] ['n'] ['p'] (DlHttp.response 404 []) true true
      = { fileWritten := false, rowInserted := false, errorLogged := true,
          outcome := WorkerOutcome.continued } :=
  (no_insert_on_download_failure ['u'] ['n'] ['p'] [] 404 true true
    (by decide)).1

/-- C8: when the download and the file write succeed but the database
insert fails, the current worker logs the error, the written file stays on
disk, no row is recorded for the item (the dedup state is not updated), and
the worker continues; the legacy worker in the fourth source part likewise
leaves the file and records nothing, though it then kills the process. -/
theorem insert_failure_leaves_file_and_no_row (url name pathTo : List Char)
    (r : DlHttp) (saved : List Char)
    (h : CrawYs.DownloadFile url name pathTo r true = Except.ok saved) :
    crawURLItemFull url name pathTo r true false
      = { fileWritten := true, rowInserted := false, errorLogged := true,
          outcome := WorkerOutcome.continued }
    ∧ legacyCrawURLItem { downloadOk := true, insertOk := false }
      = { fileWritten := true, rowInserted := false, errorLogged := true,
          outcome := WorkerOutcome.fatalExit } := by
  constructor
  · simp [crawURLItemFull, h]
  · rfl

/-- C8 witness: concrete successful download whose insert fails leaves the
file written and no row inserted. -/
theorem insert_failure_leaves_file_and_no_row_witness :
    crawURLItemFull ['u'] ['n'] ['p'] (DlHttp.response 200 []) true false
      = { fileWritten := true, rowInserted := false, errorLogged := true,
          outcome := WorkerOutcome.continued } :=
  (insert_failure_leaves_file_and_no_row ['u'] ['n'] ['p']
    (DlHttp.response 200 []) ['n'] (by rfl)).1

/-! ## FetchApi and the listing step -/

/-- Outcome of the single listing GET: the request failed on the network, or
a response arrived with a status code and a body whose read either failed
(none) or produced bytes of type A. -/
inductive HttpResult (A : Type) where
  | netError
  | response (statusCode : Nat) (body : Option A)

/-- Errors of FetchApi, abstracting the wrapped Go error values. -/
inductive FetchError where
  | requestFailed
  | readBodyFailed
deriving DecidableEq, Repr

/-- Errors of fetchWallpapers: a wrapped FetchApi error or a JSON parse
error. -/
inductive FetchListError where
  | fetchFailed (e : FetchError)
  | parseFailed
deriving DecidableEq, Repr

/-- FetchApi from the crawal package: error when the GET itself fails or the
body read fails, otherwise the body bytes.  As in the source, the response
status code is never inspected. -/
def FetchApi {A : Type} : HttpResult A → Except FetchError A
  | .netError => .error .requestFailed
  | .response _ none => .error .readBodyFailed
  | .response _ (some b) => .ok b

/-- JSON envelope of the MahjongSoul listing (responseApi and resData in the
source). -/
structure ResDataM where
  Count : Int
  Rows : List WallpaperRow
deriving DecidableEq, Repr

structure ResponseApiM where
  Code : Int
  Data : ResDataM
  Msg : List Char
deriving DecidableEq, Repr

/-- fetchWallpapers from the MahjongSoul crawler, with JSON decoding
abstracted as a function that either parses the body into the envelope or
fails: wrap a FetchApi error, fail on malformed JSON, otherwise return the
inner rows. -/
def fetchWallpapers {A : Type} (decode : A → Option ResponseApiM)
    (r : HttpResult A) : Except FetchListError (List WallpaperRow) :=
  match FetchApi r with
  | .error e => .error (.fetchFailed e)
  | .ok b =>
    match decode b with
    | none => .error .parseFailed
    | some resApi => .ok resApi.Data.Rows

/-- The whole run after the setup phase, as main sequences it: fetch the
listing, and only on success filter it and let the pool process the
resulting queue (the per-item fates coming from the environment oracle
env).  A listing error aborts the run before any queue exists. -/
def runPipeline {A : Type} (decode : A → Option ResponseApiM)
    (r : HttpResult A) (existingIDs : List (List Char))
    (env : MajongSoul → ItemEnv) :
    Except FetchListError (List (MajongSoul × ItemOutcome)) :=
  match fetchWallpapers decode r with
  | .error e => .error e
  | .ok ws =>
    .ok (crawURLRun ((filterNewWallpapers ws existingIDs).map
          (fun m => (m, env m))))

/-- C4 counterexample: FetchApi returns the body as a success for a response
with status 404 (not a 2xx success) — the status code is never checked, so
a non-2xx listing response does not produce an error. -/
theorem fetchApi_no_status_check_cex :
    FetchApi (HttpResult.response 404 (some (['x'] : List Char)))
      = Except.ok ['x']
    ∧ ¬ (200 ≤ 404 ∧ 404 < 300) := by
  refine ⟨rfl, by decide⟩

/-- C4 amended: the asset lister returns an error whenever the HTTP request
fails on the network (or the body read fails), and a decode error on
malformed JSON, and in every such case the run aborts with that error
before anything is downloaded; the response status code, however, is never
inspected, so a non-2xx response whose body reads and decodes is treated as
a successful listing. -/
theorem lister_errors_abort_run {A : Type} (decode : A → Option ResponseApiM)
    (ex : List (List Char)) (env : MajongSoul → ItemEnv) (code : Nat)
    (b : A) :
    FetchApi (HttpResult.netError (A := A)) = Except.error FetchError.requestFailed
    ∧ fetchWallpapers decode (HttpResult.netError (A := A))
        = Except.error (FetchListError.fetchFailed FetchError.requestFailed)
    ∧ (decode b = none →
        fetchWallpapers decode (HttpResult.response code (some b))
          = Except.error FetchListError.parseFailed)
    ∧ (∀ r : HttpResult A, ∀ e : FetchListError,
        fetchWallpapers decode r = Except.error e →
        runPipeline decode r ex env = Except.error e)
    ∧ (∀ resApi : ResponseApiM, decode b = some resApi →
        fetchWallpapers decode (HttpResult.response code (some b))
          = Except.ok resApi.Data.Rows) := by
  refine ⟨rfl, rfl, ?_, ?_, ?_⟩
  · intro h
    simp [fetchWallpapers, FetchApi, h]
  · intro r e h
    simp [runPipeline, h]
  · intro resApi h
    simp [fetchWallpapers, FetchApi, h]

/-- C4 amended witness: with a decoder that rejects everything, a concrete
response body yields a parse error, and the run aborts with that same
error. -/
theorem lister_errors_abort_run_witness :
    fetchWallpapers (fun _ : List Char => (none : Option ResponseApiM))
        (HttpResult.response 200 (some ['x']))
      = Except.error FetchListError.parseFailed
    ∧ runPipeline (fun _ : List Char => (none : Option ResponseApiM))
        (HttpResult.response 200 (some ['x'])) []
        (fun _ => { downloadOk := true, insertOk := true })
      = Except.error FetchListError.parseFailed := by
  have h := lister_errors_abort_run
    (fun _ : List Char => (none : Option ResponseApiM)) []
    (fun _ => ({ downloadOk := true, insertOk := true } : ItemEnv)) 200 ['x']
  have h1 := h.2.2.1 rfl
  exact ⟨h1, h.2.2.2.1 (HttpResult.response 200 (some ['x']))
    FetchListError.parseFailed h1⟩
